import Mathlib

/-!
Verification of the lepakmasjid client-side data-access layer.

The repository consists of three units built on the PocketBase client SDK:
* `submissionsApi` (list / listMySubmissions / get / create / update /
  approve / reject) over the `submissions` collection,
* `usersApi` (list / get / update / updateProfile / updatePassword / ...)
  over the `users` collection,
* the one-shot `fix-audit-logs-permissions` administrative script.

The backend service (record storage, auth, file storage) is external, so it
is modelled as an oracle (`World` / `ScriptWorld`): a record of functions
giving the outcome of each network primitive.  Every operation is embedded
as a pure function returning its result together with the ordered list of
network `Event`s it issued; an event is recorded exactly when the
corresponding call is issued, whether or not it then fails.  "The operation
throws before any network call" is the statement that the event trace is
empty on the error path.
-/

deriving instance DecidableEq for Except

/-- A JavaScript value as it can appear inside `submission.data`
(a PocketBase JSON field).  Nested structure is irrelevant to the code under
verification (values are only copied), so compound values are not needed. -/
inductive JVal where
  | undef : JVal
  | null : JVal
  | str : String → JVal
  | num : Int → JVal
  | bool : Bool → JVal
deriving DecidableEq, Repr

/-- A JavaScript object with string keys, as an association list
(keys are unique in a JS object; lookup takes the first binding). -/
abbrev JObj := List (String × JVal)

/-- JS property lookup `o[k]` (first binding wins). -/
def lookupKey : JObj → String → Option JVal
  | [], _ => none
  | (k', v) :: rest, k => if k' = k then some v else lookupKey rest k

/-- The keys of a JS object. -/
def objKeys (o : JObj) : List String := o.map (fun p => p.1)

/-- JS property assignment `o[k] = v`. -/
def setKey (o : JObj) (k : String) (v : JVal) : JObj :=
  if o.any (fun p => p.1 = k) then
    o.map (fun p => if p.1 = k then (k, v) else p)
  else
    o ++ [(k, v)]

/-- JS truthiness of an optional string field: `undefined`, `null` and the
empty string are falsy, every other string is truthy. -/
def truthyOpt : Option String → Bool
  | none => false
  | some s => s != ""

/-- Modelled from the spec: `validateSubmissionStatus` from the repository's
validation module (the module itself is not among the provided sources)
checks the status against the fixed allow-list
`pending`, `approved`, `rejected`. -/
def validateSubmissionStatus (s : String) : Bool :=
  s = "pending" || s = "approved" || s = "rejected"

/-- Modelled from the spec: `validateRecordId` from the repository's
validation module (the module itself is not among the provided sources)
checks the expected backend record-ID format
(15 alphanumeric characters, the PocketBase record-ID shape). -/
def validateRecordId (id : String) : Bool :=
  id.data.length = 15 && id.data.all (fun c => c.isAlphanum)

/-- A `Submission` record (src/unnamed/part_000 and the spec's data model):
type is `new_mosque` or `edit_mosque`, `data` is the embedded mosque-field
object, `mosque_id` and `image` are optional, plus submitter and status. -/
structure Submission where
  id : String
  type : String
  data : JObj
  mosque_id : Option String
  image : Option String
  submitted_by : String
  status : String
deriving DecidableEq, Repr

/-- The partial update sent by `submissionsApi.update` (approve / reject
paths); `none` means the field is absent from the patch. -/
structure SubmissionPatch where
  status : Option String
  reviewed_by : Option String
  reviewed_at : Option String
  rejection_reason : Option String
deriving DecidableEq, Repr

/-- The partial update sent by `usersApi.update` and friends. -/
structure UserPatch where
  name : Option String
  email : Option String
  verified : Option Bool
  password : Option String
  passwordConfirm : Option String
deriving DecidableEq, Repr

/-- The authenticated session record `pb.authStore.model`. -/
structure AuthModel where
  id : String
  email : String
deriving DecidableEq, Repr

/-- A network / side-effecting call issued to the backend or to another API
module.  `mosqueCreate` / `mosqueUpdate` stand for the calls into
`mosquesApi.create` / `mosquesApi.update` (that module is outside the
provided sources, so the call boundary itself is the observable). -/
inductive Event where
  | netGetOne (collection id : String)
  | netGetList (collection filter : String)
  | imageFetch (recordId filename : String)
  | mosqueCreate (payload : JObj) (image : Option String)
  | mosqueUpdate (mosqueId : String) (payload : JObj) (image : Option String)
  | submissionUpdate (id : String) (patch : SubmissionPatch)
  | userGet (id : String)
  | userUpdate (id : String) (patch : UserPatch)
  | userAuth (email password : String)
deriving DecidableEq, Repr

/-- The oracle for the client-side APIs: the session state and the outcome
of every backend primitive the code may call.  `fetchImage` is
`getImageFileFromRecord` (keyed by record id and filename; `.ok none`
models a falsy return), `validateImageFile` returns `some errorMessage`
on rejection and `none` on acceptance, exactly as in the source. -/
structure World where
  authModel : Option AuthModel
  now : String
  getSubmissionRecord : String → Except String Submission
  listSubmissionRecords : String → Except String (List Submission)
  patchSubmissionRecord : String → SubmissionPatch → Except String Submission
  fetchImage : String → String → Except String (Option String)
  validateImageFile : String → Option String
  createMosque : JObj → Option String → Except String Unit
  updateMosque : String → JObj → Option String → Except String Unit
  getUserRecord : String → Except String AuthModel
  patchUserRecord : String → UserPatch → Except String Unit
  authWithPassword : String → String → Except String Unit

/-- The shared `pb.collection('submissions').getList(1, 100, { filter })`
call: one network event carrying the filter string, whatever the
outcome. -/
def runGetList (w : World) (filter : String) :
    Except String (List Submission) × List Event :=
  match w.listSubmissionRecords filter with
  | .error e => (Except.error e, [Event.netGetList "submissions" filter])
  | .ok items => (Except.ok items, [Event.netGetList "submissions" filter])

/-- Embedding of `submissionsApi.list(status?)`: if `status` is truthy it is validated
against the allow-list before being interpolated into the filter; an empty
or absent status yields an empty filter. -/
def submissionsApi.list (w : World) (status : Option String) :
    Except String (List Submission) × List Event :=
  match status with
  | some s =>
    if s != "" then
      if validateSubmissionStatus s then
        runGetList w ("status = \"" ++ s ++ "\"")
      else
        (Except.error "Invalid status parameter", [])
    else runGetList w ""
  | none => runGetList w ""

/-- Embedding of `submissionsApi.listMySubmissions(status?)`: requires a session, always
constrains `submitted_by` to the session user's id, and validates a truthy
status before appending it to the filter. -/
def submissionsApi.listMySubmissions (w : World) (status : Option String) :
    Except String (List Submission) × List Event :=
  match w.authModel with
  | none => (Except.error "User not authenticated", [])
  | some m =>
    let base := "submitted_by = \"" ++ m.id ++ "\""
    match status with
    | some s =>
      if s != "" then
        if validateSubmissionStatus s then
          runGetList w (base ++ " && status = \"" ++ s ++ "\"")
        else
          (Except.error "Invalid status parameter", [])
      else runGetList w base
    | none => runGetList w base

/-- Embedding of `submissionsApi.get(id)`: validates the ID format before the network
call. -/
def submissionsApi.get (w : World) (id : String) :
    Except String Submission × List Event :=
  if validateRecordId id then
    match w.getSubmissionRecord id with
    | .error e => (Except.error e, [Event.netGetOne "submissions" id])
    | .ok s => (Except.ok s, [Event.netGetOne "submissions" id])
  else
    (Except.error "Invalid submission ID format", [])

/-- Embedding of `submissionsApi.update(id, data)`: forwards directly to the backend,
with no ID validation. -/
def submissionsApi.update (w : World) (id : String) (p : SubmissionPatch) :
    Except String Submission × List Event :=
  match w.patchSubmissionRecord id p with
  | .error e => (Except.error e, [Event.submissionUpdate id p])
  | .ok s => (Except.ok s, [Event.submissionUpdate id p])

/-- The fixed allow-list of mosque fields used by `submissionsApi.approve`
(`ALLOWED_MOSQUE_FIELDS` in the source). -/
def ALLOWED_MOSQUE_FIELDS : List String :=
  ["name", "name_bm", "address", "state", "lat", "lng",
   "description", "description_bm", "status"]

/-- The sanitisation loop of `approve`: copy a field of `submission.data`
exactly when its name is allow-listed, the key is present, and the value is
not `undefined`. -/
def sanitizedBase (data : JObj) : JObj :=
  ALLOWED_MOSQUE_FIELDS.filterMap (fun field =>
    match lookupKey data field with
    | some v => if v ≠ JVal.undef then some (field, v) else none
    | none => none)

/-- The object `approve` passes to the mosque create / update call: the
sanitised copy, with `status` forced to `approved` and `created_by` set to
the submitter when the submission creates a new mosque. -/
def mosquePayload (sub : Submission) : JObj :=
  let base := sanitizedBase sub.data
  if sub.type = "new_mosque" then
    setKey (setKey base "status" (JVal.str "approved"))
      "created_by" (JVal.str sub.submitted_by)
  else
    base

/-- The image-handling step of `approve`: when the submission carries a
truthy image filename the file is fetched; a fetch error is swallowed, a
falsy result is ignored, and a fetched file is kept only if
`validateImageFile` accepts it. -/
def approveImage (w : World) (sub : Submission) :
    Option String × List Event :=
  match sub.image with
  | some fname =>
    if fname != "" then
      match w.fetchImage sub.id fname with
      | .error _ => (none, [Event.imageFetch sub.id fname])
      | .ok none => (none, [Event.imageFetch sub.id fname])
      | .ok (some file) =>
        match w.validateImageFile file with
        | none => (some file, [Event.imageFetch sub.id fname])
        | some _ => (none, [Event.imageFetch sub.id fname])
    else (none, [])
  | none => (none, [])

/-- The mosque create / update step of `approve`: create for `new_mosque`,
update for `edit_mosque` with a truthy `mosque_id` (after validating its
format); any other shape performs no mosque call. -/
def approveMosque (w : World) (sub : Submission) (img : Option String) :
    Except String Unit × List Event :=
  if sub.type = "new_mosque" then
    match w.createMosque (mosquePayload sub) img with
    | .error e => (Except.error e, [Event.mosqueCreate (mosquePayload sub) img])
    | .ok _ => (Except.ok (), [Event.mosqueCreate (mosquePayload sub) img])
  else if sub.type = "edit_mosque" then
    match sub.mosque_id with
    | some mid =>
      if mid != "" then
        if validateRecordId mid then
          match w.updateMosque mid (mosquePayload sub) img with
          | .error e =>
            (Except.error e, [Event.mosqueUpdate mid (mosquePayload sub) img])
          | .ok _ =>
            (Except.ok (), [Event.mosqueUpdate mid (mosquePayload sub) img])
        else
          (Except.error "Invalid mosque ID format", [])
      else (Except.ok (), [])
    | none => (Except.ok (), [])
  else (Except.ok (), [])

/-- The final patch `approve` sends through `this.update`. -/
def reviewPatch (reviewedBy now : String) : SubmissionPatch :=
  ⟨some "approved", some reviewedBy, some now, none⟩

/-- The tail of `approve` after the submission has been fetched, given the
outcome `ist` of the image step: run the mosque step (propagating its
error), then mark the submission approved via `submissionsApi.update`. -/
def approveCont (w : World) (id reviewedBy : String) (sub : Submission)
    (tr0 : List Event) (ist : Option String × List Event) :
    Except String Submission × List Event :=
  match approveMosque w sub ist.1 with
  | (.error e, trM) => (Except.error e, tr0 ++ ist.2 ++ trM)
  | (.ok _, trM) =>
    match submissionsApi.update w id (reviewPatch reviewedBy w.now) with
    | (r, trF) => (r, tr0 ++ ist.2 ++ trM ++ trF)

/-- Embedding of `submissionsApi.approve(id, reviewedBy)`: fetch the submission through
`this.get`, sanitise its data, run the image step, the mosque step and the
final status update, in program order. -/
def submissionsApi.approve (w : World) (id reviewedBy : String) :
    Except String Submission × List Event :=
  match submissionsApi.get w id with
  | (.ok sub, tr0) => approveCont w id reviewedBy sub tr0 (approveImage w sub)
  | (.error e, tr0) => (Except.error e, tr0)

/-- Embedding of `usersApi.get(id)`: forwards directly to the backend, with no ID
validation. -/
def usersApi.get (w : World) (id : String) :
    Except String AuthModel × List Event :=
  match w.getUserRecord id with
  | .error e => (Except.error e, [Event.userGet id])
  | .ok u => (Except.ok u, [Event.userGet id])

/-- Embedding of `usersApi.update(id, data)`: forwards directly to the backend, with no
ID validation. -/
def usersApi.update (w : World) (id : String) (p : UserPatch) :
    Except String Unit × List Event :=
  match w.patchUserRecord id p with
  | .error e => (Except.error e, [Event.userUpdate id p])
  | .ok _ => (Except.ok (), [Event.userUpdate id p])

/-- The patch `updatePassword` sends on success. -/
def passwordPatch (newPassword passwordConfirm : String) : UserPatch :=
  ⟨none, none, none, some newPassword, some passwordConfirm⟩

/-- Embedding of `usersApi.updatePassword(old, new, confirm)`: requires a session,
re-authenticates with the stored email and the old password, maps an
authentication failure to `Current password is incorrect` without issuing
the update, and otherwise issues the password update. -/
def usersApi.updatePassword (w : World)
    (oldPassword newPassword passwordConfirm : String) :
    Except String Unit × List Event :=
  match w.authModel with
  | none => (Except.error "User not authenticated", [])
  | some m =>
    match w.authWithPassword m.email oldPassword with
    | .error _ =>
      (Except.error "Current password is incorrect",
       [Event.userAuth m.email oldPassword])
    | .ok _ =>
      match w.patchUserRecord m.id (passwordPatch newPassword passwordConfirm) with
      | .error e =>
        (Except.error e,
         [Event.userAuth m.email oldPassword,
          Event.userUpdate m.id (passwordPatch newPassword passwordConfirm)])
      | .ok _ =>
        (Except.ok (),
         [Event.userAuth m.email oldPassword,
          Event.userUpdate m.id (passwordPatch newPassword passwordConfirm)])

/-! ### The fix-audit-logs-permissions script -/

/-- A backend collection's access-rule set (the fields the script reads and
patches); `none` models an unset rule. -/
structure Collection where
  id : String
  listRule : Option String
  viewRule : Option String
  createRule : Option String
  updateRule : Option String
  deleteRule : Option String
deriving DecidableEq, Repr

/-- A side-effecting call issued by the administrative script. -/
inductive ScriptEvent where
  | adminAuth (email password : String)
  | collectionsGet (name : String)
  | collectionsUpdate (collectionId : String) (payload : List (String × String))
deriving DecidableEq, Repr

/-- The environment variables the script reads; `none` is an unset
variable. -/
structure ScriptEnv where
  viteUrl : Option String
  pocketbaseUrl : Option String
  adminEmail : Option String
  adminPassword : Option String
deriving DecidableEq, Repr

/-- The oracle for the script: backend outcomes plus the operator's
interactive answers to the email / password prompts. -/
structure ScriptWorld where
  adminAuthFn : String → String → Except String Unit
  getCollection : String → Except String Collection
  updateCollection : String → List (String × String) → Except String Unit
  promptEmail : String
  promptPassword : String

/-- Resolution of `VITE_POCKETBASE_URL || POCKETBASE_URL`, with JS truthiness: the
resolved URL is `none` exactly when `!POCKETBASE_URL` holds and the script
exits up front. -/
def resolvedUrl (e : ScriptEnv) : Option String :=
  if truthyOpt e.viteUrl then e.viteUrl
  else if truthyOpt e.pocketbaseUrl then e.pocketbaseUrl
  else none

/-- The `authenticate(pb)` function of the script: try the environment
credentials when both are truthy, then fall back to the interactive
prompts; returns whether authentication succeeded. -/
def authenticate (e : ScriptEnv) (w : ScriptWorld) : Bool × List ScriptEvent :=
  let promptStep := fun (tr : List ScriptEvent) =>
    match w.adminAuthFn w.promptEmail w.promptPassword with
    | .ok _ =>
      (true, tr ++ [ScriptEvent.adminAuth w.promptEmail w.promptPassword])
    | .error _ =>
      (false, tr ++ [ScriptEvent.adminAuth w.promptEmail w.promptPassword])
  match e.adminEmail, e.adminPassword with
  | some em, some pw =>
    if em != "" && pw != "" then
      match w.adminAuthFn em pw with
      | .ok _ => (true, [ScriptEvent.adminAuth em pw])
      | .error _ => promptStep [ScriptEvent.adminAuth em pw]
    else promptStep []
  | some em, none =>
    let _ := em
    promptStep []
  | none, _ => promptStep []

/-- The create-rule literal the script writes. -/
def auditCreateRule : String := "@request.auth.id != \"\""

/-- The result object of `fixAuditLogsPermissions`. -/
structure ScriptResult where
  success : Bool
  errMsg : Option String
deriving DecidableEq, Repr

/-- Embedding of `fixAuditLogsPermissions(pb)`: fetch the `audit_logs` collection, then
send an update whose payload contains only the `createRule` field; any
error is caught and reported as `success = false`. -/
def fixAuditLogsPermissions (w : ScriptWorld) :
    ScriptResult × List ScriptEvent :=
  match w.getCollection "audit_logs" with
  | .error e => (⟨false, some e⟩, [ScriptEvent.collectionsGet "audit_logs"])
  | .ok c =>
    match w.updateCollection c.id [("createRule", auditCreateRule)] with
    | .error e =>
      (⟨false, some e⟩,
       [ScriptEvent.collectionsGet "audit_logs",
        ScriptEvent.collectionsUpdate c.id [("createRule", auditCreateRule)]])
    | .ok _ =>
      (⟨true, none⟩,
       [ScriptEvent.collectionsGet "audit_logs",
        ScriptEvent.collectionsUpdate c.id [("createRule", auditCreateRule)]])

/-- Modelled from the spec: the backend applies a collection update by
merging only the fields present in the payload and leaving every other
field of the collection unchanged (PATCH semantics of the external
service). -/
def applyCollectionUpdate (c : Collection) (payload : List (String × String)) :
    Collection :=
  payload.foldl (fun acc kv =>
    if kv.1 = "listRule" then
      ⟨acc.id, some kv.2, acc.viewRule, acc.createRule, acc.updateRule, acc.deleteRule⟩
    else if kv.1 = "viewRule" then
      ⟨acc.id, acc.listRule, some kv.2, acc.createRule, acc.updateRule, acc.deleteRule⟩
    else if kv.1 = "createRule" then
      ⟨acc.id, acc.listRule, acc.viewRule, some kv.2, acc.updateRule, acc.deleteRule⟩
    else if kv.1 = "updateRule" then
      ⟨acc.id, acc.listRule, acc.viewRule, acc.createRule, some kv.2, acc.deleteRule⟩
    else if kv.1 = "deleteRule" then
      ⟨acc.id, acc.listRule, acc.viewRule, acc.createRule, acc.updateRule, some kv.2⟩
    else acc) c

/-- The script's `main` plus its top-level URL guard: exit code 1 when the
URL variable is unset, when authentication fails, or when the permission
fix fails; exit code 0 otherwise.  The trace lists the side-effecting calls
in program order. -/
def scriptMain (e : ScriptEnv) (w : ScriptWorld) : Nat × List ScriptEvent :=
  match resolvedUrl e with
  | none => (1, [])
  | some _ =>
    let a := authenticate e w
    if a.1 then
      let r := fixAuditLogsPermissions w
      ((if r.1.success then 0 else 1), a.2 ++ r.2)
    else (1, a.2)

/-! ### Concrete fixtures used by witnesses and counterexamples -/

/-- A `new_mosque` submission whose embedded data also carries a
`created_by` key (a key outside the allow-list). -/
def subNew : Submission :=
  ⟨"sub0000000000aa", "new_mosque",
   [("name", JVal.str "Masjid Test"), ("created_by", JVal.str "attacker")],
   none, none, "user00000000001", "pending"⟩

/-- An `edit_mosque` submission with no `mosque_id`. -/
def subEditNoId : Submission :=
  ⟨"edit000000000aa", "edit_mosque", [("name", JVal.str "Masjid Edit")],
   none, none, "user00000000001", "pending"⟩

/-- A `new_mosque` submission carrying an attached image. -/
def subImg : Submission :=
  ⟨"subimg000000aaa", "new_mosque", [("name", JVal.str "Masjid Img")],
   none, some "photo.png", "user00000000001", "pending"⟩

/-- A world in which every backend call succeeds and fetching submission
records yields `sub`. -/
def mkWorld (sub : Submission) : World :=
  ⟨some ⟨"user00000000001", "user@example.com"⟩,
   "2026-01-01T00:00:00.000Z",
   fun _ => Except.ok sub,
   fun _ => Except.ok [],
   fun _ _ => Except.ok sub,
   fun _ _ => Except.ok none,
   fun _ => none,
   fun _ _ => Except.ok (),
   fun _ _ _ => Except.ok (),
   fun i => Except.ok ⟨i, "u@example.com"⟩,
   fun _ _ => Except.ok (),
   fun _ _ => Except.ok ()⟩

/-- Variant of `mkWorld subNew` with no authenticated session. -/
def wNoAuth : World :=
  ⟨none, (mkWorld subNew).now, (mkWorld subNew).getSubmissionRecord,
   (mkWorld subNew).listSubmissionRecords,
   (mkWorld subNew).patchSubmissionRecord, (mkWorld subNew).fetchImage,
   (mkWorld subNew).validateImageFile, (mkWorld subNew).createMosque,
   (mkWorld subNew).updateMosque, (mkWorld subNew).getUserRecord,
   (mkWorld subNew).patchUserRecord, (mkWorld subNew).authWithPassword⟩

/-- Variant of `mkWorld subNew` with a failing password re-authentication. -/
def wBadAuth : World :=
  ⟨(mkWorld subNew).authModel, (mkWorld subNew).now,
   (mkWorld subNew).getSubmissionRecord,
   (mkWorld subNew).listSubmissionRecords,
   (mkWorld subNew).patchSubmissionRecord, (mkWorld subNew).fetchImage,
   (mkWorld subNew).validateImageFile, (mkWorld subNew).createMosque,
   (mkWorld subNew).updateMosque, (mkWorld subNew).getUserRecord,
   (mkWorld subNew).patchUserRecord,
   fun _ _ => Except.error "failed to authenticate"⟩

/-- Variant of `mkWorld subImg` with a failing image fetch. -/
def wImgFail : World :=
  ⟨(mkWorld subImg).authModel, (mkWorld subImg).now,
   (mkWorld subImg).getSubmissionRecord,
   (mkWorld subImg).listSubmissionRecords,
   (mkWorld subImg).patchSubmissionRecord,
   fun _ _ => Except.error "network error",
   (mkWorld subImg).validateImageFile, (mkWorld subImg).createMosque,
   (mkWorld subImg).updateMosque, (mkWorld subImg).getUserRecord,
   (mkWorld subImg).patchUserRecord, (mkWorld subImg).authWithPassword⟩

/-- Variant of `mkWorld subNew` with a failing mosque creation. -/
def wMosqueFail : World :=
  ⟨(mkWorld subNew).authModel, (mkWorld subNew).now,
   (mkWorld subNew).getSubmissionRecord,
   (mkWorld subNew).listSubmissionRecords,
   (mkWorld subNew).patchSubmissionRecord, (mkWorld subNew).fetchImage,
   (mkWorld subNew).validateImageFile,
   fun _ _ => Except.error "create failed",
   (mkWorld subNew).updateMosque, (mkWorld subNew).getUserRecord,
   (mkWorld subNew).patchUserRecord, (mkWorld subNew).authWithPassword⟩

/-- The events the mosque step of `approve` issues when it succeeds:
a create for `new_mosque`, an update for `edit_mosque` with a truthy
`mosque_id`, and nothing otherwise. -/
def mosqueStepEvents (sub : Submission) (img : Option String) : List Event :=
  if sub.type = "new_mosque" then
    [Event.mosqueCreate (mosquePayload sub) img]
  else if sub.type = "edit_mosque" then
    match sub.mosque_id with
    | some mid =>
      if mid != "" then [Event.mosqueUpdate mid (mosquePayload sub) img]
      else []
    | none => []
  else []

/-! ### Helper lemmas about the association-list object model -/

theorem any_key_iff {o : JObj} {k : String} :
    (o.any (fun p => p.1 = k) = true) ↔ k ∈ objKeys o := by
  simp [objKeys, List.any_eq_true, List.mem_map]

theorem mem_objKeys_sanitizedBase {d : JObj} {k : String}
    (h : k ∈ objKeys (sanitizedBase d)) : k ∈ ALLOWED_MOSQUE_FIELDS := by
  unfold objKeys sanitizedBase at h
  rcases List.mem_map.mp h with ⟨p, hp, hpk⟩
  rcases List.mem_filterMap.mp hp with ⟨f, hf, hg⟩
  cases hv : lookupKey d f with
  | none => rw [hv] at hg; cases hg
  | some v =>
    rw [hv] at hg
    change (if v ≠ JVal.undef then some (f, v) else none) = some p at hg
    by_cases hu : v = JVal.undef
    · rw [if_neg (fun hne => hne hu)] at hg; cases hg
    · rw [if_pos hu] at hg; cases hg; exact hpk ▸ hf

theorem mem_objKeys_setKey {o : JObj} {k k' : String} {v : JVal}
    (h : k ∈ objKeys (setKey o k' v)) : k ∈ objKeys o ∨ k = k' := by
  unfold setKey at h
  split at h
  · unfold objKeys at h ⊢
    rw [List.map_map] at h
    rcases List.mem_map.mp h with ⟨q, hq, hqk⟩
    by_cases hqk' : q.1 = k'
    · right
      simp only [Function.comp, hqk', if_pos] at hqk
      exact hqk.symm
    · left
      simp only [Function.comp, hqk', if_neg, if_false] at hqk
      exact List.mem_map.mpr ⟨q, hq, hqk⟩
  · unfold objKeys at h ⊢
    rw [List.map_append] at h
    rcases List.mem_append.mp h with h | h
    · exact Or.inl h
    · right
      simpa using h

theorem lookupKey_cons (a : String) (b : JVal) (rest : JObj) (k : String) :
    lookupKey ((a, b) :: rest) k = if a = k then some b else lookupKey rest k :=
  rfl

theorem lookupKey_map_replace {o : JObj} {k : String} {v : JVal} :
    k ∈ objKeys o →
    lookupKey (o.map (fun p => if p.1 = k then (k, v) else p)) k = some v := by
  induction o with
  | nil => intro h; cases h
  | cons q rest ih =>
    obtain ⟨a, b⟩ := q
    intro h
    by_cases ha : a = k
    · simp only [List.map_cons, ha, if_pos]
      rw [lookupKey_cons, if_pos rfl]
    · simp only [List.map_cons, ha, if_neg, if_false]
      rw [lookupKey_cons, if_neg ha]
      apply ih
      rcases List.mem_map.mp h with ⟨p, hp, hpk⟩
      rcases List.mem_cons.mp hp with hpq | hpr
      · rw [hpq] at hpk; exact absurd hpk ha
      · exact List.mem_map.mpr ⟨p, hpr, hpk⟩

theorem lookupKey_append_right {o l : JObj} {k : String}
    (h : ¬ k ∈ objKeys o) : lookupKey (o ++ l) k = lookupKey l k := by
  induction o with
  | nil => rfl
  | cons q rest ih =>
    obtain ⟨a, b⟩ := q
    have ha : ¬ a = k := fun hak => h (List.mem_map.mpr ⟨(a, b), List.mem_cons_self _ _, hak⟩)
    have hr : ¬ k ∈ objKeys rest := fun hk => by
      rcases List.mem_map.mp hk with ⟨p, hp, hpk⟩
      exact h (List.mem_map.mpr ⟨p, List.mem_cons_of_mem _ hp, hpk⟩)
    show lookupKey ((a, b) :: (rest ++ l)) k = lookupKey l k
    rw [lookupKey_cons, if_neg ha]
    exact ih hr

theorem lookupKey_setKey_self (o : JObj) (k : String) (v : JVal) :
    lookupKey (setKey o k v) k = some v := by
  unfold setKey
  split
  · next hany => exact lookupKey_map_replace (any_key_iff.mp hany)
  · next hany =>
    have hnot : ¬ k ∈ objKeys o := fun hk => hany (any_key_iff.mpr hk)
    rw [lookupKey_append_right hnot, lookupKey_cons, if_pos rfl]

/-! ### Helper lemmas about the approval workflow -/

theorem submissionsGet_of_record_ok {w : World} {id : String} {sub : Submission}
    (hv : validateRecordId id = true)
    (h : w.getSubmissionRecord id = Except.ok sub) :
    submissionsApi.get w id = (Except.ok sub, [Event.netGetOne "submissions" id]) := by
  simp [submissionsApi.get, hv, h]

theorem submissionsGet_of_record_error {w : World} {id e : String}
    (hv : validateRecordId id = true)
    (h : w.getSubmissionRecord id = Except.error e) :
    submissionsApi.get w id = (Except.error e, [Event.netGetOne "submissions" id]) := by
  simp [submissionsApi.get, hv, h]

theorem submissionsGet_invalid {w : World} {id : String}
    (hv : validateRecordId id = false) :
    submissionsApi.get w id = (Except.error "Invalid submission ID format", []) := by
  simp [submissionsApi.get, hv]

theorem submissionsGet_ok_inv {w : World} {id : String} {sub : Submission}
    {tr : List Event} (h : submissionsApi.get w id = (Except.ok sub, tr)) :
    validateRecordId id = true ∧ w.getSubmissionRecord id = Except.ok sub ∧
      tr = [Event.netGetOne "submissions" id] := by
  by_cases hv : validateRecordId id = true
  · cases hrec : w.getSubmissionRecord id with
    | error e => rw [submissionsGet_of_record_error hv hrec] at h; simp at h
    | ok s =>
      rw [submissionsGet_of_record_ok hv hrec] at h
      simp only [Prod.mk.injEq, Except.ok.injEq] at h
      obtain ⟨h1, h2⟩ := h
      subst h1
      exact ⟨hv, rfl, h2.symm⟩
  · rw [Bool.not_eq_true] at hv
    rw [submissionsGet_invalid hv] at h
    simp at h

theorem update_of_patch_ok {w : World} {id : String} {p : SubmissionPatch}
    {s : Submission} (h : w.patchSubmissionRecord id p = Except.ok s) :
    submissionsApi.update w id p = (Except.ok s, [Event.submissionUpdate id p]) := by
  simp [submissionsApi.update, h]

theorem update_of_patch_error {w : World} {id : String} {p : SubmissionPatch}
    {e : String} (h : w.patchSubmissionRecord id p = Except.error e) :
    submissionsApi.update w id p = (Except.error e, [Event.submissionUpdate id p]) := by
  simp [submissionsApi.update, h]

theorem update_events (w : World) (id : String) (p : SubmissionPatch) :
    (submissionsApi.update w id p).2 = [Event.submissionUpdate id p] := by
  cases h : w.patchSubmissionRecord id p with
  | error e => rw [update_of_patch_error h]
  | ok s => rw [update_of_patch_ok h]

theorem approveImage_mem {w : World} {sub : Submission} {ev : Event}
    (h : ev ∈ (approveImage w sub).2) : ∃ a b, ev = Event.imageFetch a b := by
  unfold approveImage at h
  split at h
  · split at h
    · split at h
      · exact ⟨_, _, List.mem_singleton.mp h⟩
      · exact ⟨_, _, List.mem_singleton.mp h⟩
      · split at h
        · exact ⟨_, _, List.mem_singleton.mp h⟩
        · exact ⟨_, _, List.mem_singleton.mp h⟩
    · cases h
  · cases h

theorem approveImage_of_fetch_error {w : World} {sub : Submission} {f e : String}
    (himg : sub.image = some f) (hf : (f != "") = true)
    (h : w.fetchImage sub.id f = Except.error e) :
    approveImage w sub = (none, [Event.imageFetch sub.id f]) := by
  simp [approveImage, himg, hf, h]

theorem approveImage_of_validate_fail {w : World} {sub : Submission}
    {f file msg : String}
    (himg : sub.image = some f) (hf : (f != "") = true)
    (h : w.fetchImage sub.id f = Except.ok (some file))
    (hval : w.validateImageFile file = some msg) :
    approveImage w sub = (none, [Event.imageFetch sub.id f]) := by
  simp [approveImage, himg, hf, h, hval]

theorem approveMosque_mem {w : World} {sub : Submission} {img : Option String}
    {ev : Event} (h : ev ∈ (approveMosque w sub img).2) :
    (∃ p i, ev = Event.mosqueCreate p i) ∨
    (∃ m p i, ev = Event.mosqueUpdate m p i) := by
  unfold approveMosque at h
  split at h
  · cases hc : w.createMosque (mosquePayload sub) img <;> rw [hc] at h <;>
      exact Or.inl ⟨_, _, List.mem_singleton.mp h⟩
  · split at h
    · split at h
      · split at h
        · split at h
          · cases hu : w.updateMosque _ (mosquePayload sub) img <;>
              rw [hu] at h <;>
              exact Or.inr ⟨_, _, _, List.mem_singleton.mp h⟩
          · cases h
        · cases h
      · cases h
    · cases h

theorem approveMosque_ok_events {w : World} {sub : Submission}
    {img : Option String} {u : Unit} {tr : List Event}
    (h : approveMosque w sub img = (Except.ok u, tr)) :
    tr = mosqueStepEvents sub img := by
  unfold approveMosque at h
  unfold mosqueStepEvents
  split at h
  · next htype =>
    rw [if_pos htype]
    cases hc : w.createMosque (mosquePayload sub) img <;> rw [hc] at h <;>
      simp only [Prod.mk.injEq] at h
    · cases h.1
    · exact h.2.symm
  · next htype =>
    rw [if_neg htype]
    split at h
    · next hedit =>
      rw [if_pos hedit]
      split at h
      · next mid hmid =>
        split at h
        · next hne =>
          rw [if_pos hne]
          split at h
          · next hvm =>
            cases hu : w.updateMosque mid (mosquePayload sub) img <;>
              rw [hu] at h <;> simp only [Prod.mk.injEq] at h
            · cases h.1
            · exact h.2.symm
          · simp only [Prod.mk.injEq] at h
            cases h.1
        · next hne =>
          rw [if_neg hne]
          simp only [Prod.mk.injEq] at h
          exact h.2.symm
      · simp only [Prod.mk.injEq] at h
        exact h.2.symm
    · next hedit =>
      rw [if_neg hedit]
      simp only [Prod.mk.injEq] at h
      exact h.2.symm

theorem approveMosque_create_mem {w : World} {sub : Submission}
    {img : Option String} {p : JObj} {i : Option String}
    (h : Event.mosqueCreate p i ∈ (approveMosque w sub img).2) :
    sub.type = "new_mosque" ∧ p = mosquePayload sub ∧ i = img := by
  unfold approveMosque at h
  split at h
  · next htype =>
    cases hc : w.createMosque (mosquePayload sub) img <;> rw [hc] at h <;>
    · have heq := List.mem_singleton.mp h
      injection heq with h1 h2
      exact ⟨htype, h1, h2⟩
  · split at h
    · split at h
      · split at h
        · split at h
          · cases hu : w.updateMosque _ (mosquePayload sub) img <;>
              rw [hu] at h <;> cases List.mem_singleton.mp h
          · cases h
        · cases h
      · cases h
    · cases h

theorem approveMosque_invalid_mid {w : World} {sub : Submission}
    {img : Option String} {mid : String}
    (htype : sub.type = "edit_mosque") (hmid : sub.mosque_id = some mid)
    (hne : (mid != "") = true) (hv : validateRecordId mid = false) :
    approveMosque w sub img = (Except.error "Invalid mosque ID format", []) := by
  simp [approveMosque, htype, hmid, hne, hv]

theorem approveCont_of_mosque_error {w : World} {id rb : String}
    {sub : Submission} {tr0 : List Event} {ist : Option String × List Event}
    {e : String} {trM : List Event}
    (h : approveMosque w sub ist.1 = (Except.error e, trM)) :
    approveCont w id rb sub tr0 ist = (Except.error e, tr0 ++ ist.2 ++ trM) := by
  unfold approveCont
  rw [h]

theorem approveCont_of_mosque_ok {w : World} {id rb : String}
    {sub : Submission} {tr0 : List Event} {ist : Option String × List Event}
    {u : Unit} {trM : List Event}
    (h : approveMosque w sub ist.1 = (Except.ok u, trM)) :
    approveCont w id rb sub tr0 ist =
      ((submissionsApi.update w id (reviewPatch rb w.now)).1,
       tr0 ++ ist.2 ++ trM ++
         (submissionsApi.update w id (reviewPatch rb w.now)).2) := by
  unfold approveCont
  rw [h]

theorem approve_of_get_ok {w : World} {id rb : String} {sub : Submission}
    {tr0 : List Event} (h : submissionsApi.get w id = (Except.ok sub, tr0)) :
    submissionsApi.approve w id rb =
      approveCont w id rb sub tr0 (approveImage w sub) := by
  unfold submissionsApi.approve
  rw [h]

theorem approve_of_get_error {w : World} {id rb e : String} {tr0 : List Event}
    (h : submissionsApi.get w id = (Except.error e, tr0)) :
    submissionsApi.approve w id rb = (Except.error e, tr0) := by
  unfold submissionsApi.approve
  rw [h]

theorem runGetList_events (w : World) (filter : String) :
    (runGetList w filter).2 = [Event.netGetList "submissions" filter] := by
  unfold runGetList
  cases h : w.listSubmissionRecords filter <;> rfl

/-! ### Claim theorems -/

/-- C2, counterexample: the empty string is a status argument outside the
allow-list `pending` / `approved` / `rejected`, yet `submissionsApi.list`
does not throw `Invalid status parameter` on it: being falsy in
JavaScript, it skips validation and the backend query is issued (with an
empty filter). -/
theorem C2_counterexample :
    ("" = "pending" ∨ "" = "approved" ∨ "" = "rejected") = False ∧
    submissionsApi.list (mkWorld subNew) (some "") =
      (Except.ok [], [Event.netGetList "submissions" ""]) := by
  constructor
  · simp
  · decide

/-- C2, amended: every truthy (non-empty) status argument outside the
allow-list makes `submissionsApi.list` and (with a session present)
`submissionsApi.listMySubmissions` throw `Invalid status parameter` with no
network call; without a session `listMySubmissions` throws
`User not authenticated`, still before any network call.  An empty-string
status is falsy in JavaScript and is treated as no filter instead. -/
theorem C2_invalid_status_rejected :
    ∀ (w : World) (s : String), s ≠ "" → validateSubmissionStatus s = false →
      submissionsApi.list w (some s) =
        (Except.error "Invalid status parameter", []) ∧
      (w.authModel = none →
        submissionsApi.listMySubmissions w (some s) =
          (Except.error "User not authenticated", [])) ∧
      (∀ m, w.authModel = some m →
        submissionsApi.listMySubmissions w (some s) =
          (Except.error "Invalid status parameter", [])) := by
  intro w s hs hv
  have hbs : (s != "") = true := bne_iff_ne.mpr hs
  refine ⟨?_, ?_, ?_⟩
  · simp [submissionsApi.list, hbs, hv]
  · intro hm
    simp [submissionsApi.listMySubmissions, hm]
  · intro m hm
    simp [submissionsApi.listMySubmissions, hm, hbs, hv]

/-- C2 witness: at the concrete invalid status `evil`, both list
operations throw `Invalid status parameter` and issue no network call. -/
theorem C2_witness :
    submissionsApi.list (mkWorld subNew) (some "evil") =
      (Except.error "Invalid status parameter", []) ∧
    submissionsApi.listMySubmissions (mkWorld subNew) (some "evil") =
      (Except.error "Invalid status parameter", []) :=
  ⟨(C2_invalid_status_rejected (mkWorld subNew) "evil" (by decide) (by decide)).1,
   (C2_invalid_status_rejected (mkWorld subNew) "evil" (by decide) (by decide)).2.2
     ⟨"user00000000001", "user@example.com"⟩ rfl⟩

/-- C3, counterexample: `not-a-valid-id!` fails the record-ID format
check, yet `submissionsApi.update` and `usersApi.get` do not throw: each
issues its backend call carrying the malformed ID. -/
theorem C3_counterexample :
    validateRecordId "not-a-valid-id!" = false ∧
    submissionsApi.update (mkWorld subNew) "not-a-valid-id!"
        (reviewPatch "rev" "t") =
      (Except.ok subNew,
       [Event.submissionUpdate "not-a-valid-id!" (reviewPatch "rev" "t")]) ∧
    usersApi.get (mkWorld subNew) "not-a-valid-id!" =
      (Except.ok ⟨"not-a-valid-id!", "u@example.com"⟩,
       [Event.userGet "not-a-valid-id!"]) := by
  refine ⟨by decide, by decide, by decide⟩

/-- C3, amended: of the four listed ID-taking operations only
`submissionsApi.get` rejects a malformed record ID before any network
call; `submissionsApi.update`, `usersApi.get` and `usersApi.update`
always issue their backend call with the given ID, validated or not. -/
theorem C3_only_get_validates :
    ∀ (w : World) (id : String),
      (validateRecordId id = false →
        submissionsApi.get w id =
          (Except.error "Invalid submission ID format", [])) ∧
      (∀ p, (submissionsApi.update w id p).2 = [Event.submissionUpdate id p]) ∧
      ((usersApi.get w id).2 = [Event.userGet id]) ∧
      (∀ p, (usersApi.update w id p).2 = [Event.userUpdate id p]) := by
  intro w id
  refine ⟨fun hv => submissionsGet_invalid hv, fun p => update_events w id p, ?_, ?_⟩
  · unfold usersApi.get
    cases h : w.getUserRecord id <;> rfl
  · intro p
    unfold usersApi.update
    cases h : w.patchUserRecord id p <;> rfl

/-- C3 witness: at the concrete malformed ID `deadbeef`,
`submissionsApi.get` throws before any network call. -/
theorem C3_witness :
    validateRecordId "deadbeef" = false ∧
    submissionsApi.get (mkWorld subNew) "deadbeef" =
      (Except.error "Invalid submission ID format", []) :=
  ⟨by decide, (C3_only_get_validates (mkWorld subNew) "deadbeef").1 (by decide)⟩

/-- C9: without a session `listMySubmissions` throws
`User not authenticated` before any network call; with a session, every
list query it issues has a filter that starts with
`submitted_by = "<session user id>"`, so only the caller's own submissions
are requested. -/
theorem C9_listMySubmissions_scoped :
    ∀ (w : World) (status : Option String),
      (w.authModel = none →
        submissionsApi.listMySubmissions w status =
          (Except.error "User not authenticated", [])) ∧
      (∀ m, w.authModel = some m →
        ∀ c f, Event.netGetList c f ∈
            (submissionsApi.listMySubmissions w status).2 →
          ∃ rest, f = ("submitted_by = \"" ++ m.id ++ "\"") ++ rest) := by
  intro w status
  constructor
  · intro hm
    simp [submissionsApi.listMySubmissions, hm]
  · intro m hm c f hf
    simp only [submissionsApi.listMySubmissions, hm] at hf
    split at hf
    · next s =>
      split at hf
      · split at hf
        · rw [runGetList_events] at hf
          have heq := List.mem_singleton.mp hf
          injection heq with h1 h2
          exact ⟨" && status = \"" ++ s ++ "\"",
            by rw [h2]; simp only [String.append_assoc]⟩
        · cases hf
      · rw [runGetList_events] at hf
        have heq := List.mem_singleton.mp hf
        injection heq with h1 h2
        exact ⟨"", by rw [h2, String.append_empty]⟩
    · rw [runGetList_events] at hf
      have heq := List.mem_singleton.mp hf
      injection heq with h1 h2
      exact ⟨"", by rw [h2, String.append_empty]⟩

/-- C9 witness: with the fixture session, a filtered call issues exactly
one query whose filter starts with the caller's `submitted_by`
constraint; without a session the operation throws with no network
call. -/
theorem C9_witness :
    (∃ rest, "submitted_by = \"user00000000001\" && status = \"pending\"" =
      ("submitted_by = \"" ++ "user00000000001" ++ "\"") ++ rest) ∧
    submissionsApi.listMySubmissions wNoAuth none =
      (Except.error "User not authenticated", []) := by
  constructor
  · exact (C9_listMySubmissions_scoped (mkWorld subNew) (some "pending")).2
      ⟨"user00000000001", "user@example.com"⟩ rfl "submissions"
      "submitted_by = \"user00000000001\" && status = \"pending\"" (by decide)
  · exact (C9_listMySubmissions_scoped wNoAuth none).1 rfl

/-- C4: `updatePassword` first attempts authentication with the stored
email and the old password (the first issued call is that authentication);
if it fails, the operation throws `Current password is incorrect` and the
trace contains no user-update call, so the user record is unchanged; only
if it succeeds is the password update issued. -/
theorem C4_updatePassword_verifies_old_password :
    ∀ (w : World) (oldP newP conf : String) (m : AuthModel),
      w.authModel = some m →
      ((∃ e, w.authWithPassword m.email oldP = Except.error e) →
        usersApi.updatePassword w oldP newP conf =
          (Except.error "Current password is incorrect",
           [Event.userAuth m.email oldP])) ∧
      (∀ u, w.authWithPassword m.email oldP = Except.ok u →
        (usersApi.updatePassword w oldP newP conf).2 =
          [Event.userAuth m.email oldP,
           Event.userUpdate m.id (passwordPatch newP conf)]) := by
  intro w oldP newP conf m hm
  constructor
  · rintro ⟨e, he⟩
    simp [usersApi.updatePassword, hm, he]
  · intro u hu
    simp only [usersApi.updatePassword, hm, hu]
    cases hp : w.patchUserRecord m.id (passwordPatch newP conf) <;> rfl

/-- C4 witness: in the fixture world whose re-authentication fails, the
concrete call throws `Current password is incorrect` and issues only the
authentication attempt, never the update. -/
theorem C4_witness :
    usersApi.updatePassword wBadAuth "oldpw" "newpw" "newpw" =
      (Except.error "Current password is incorrect",
       [Event.userAuth "user@example.com" "oldpw"]) :=
  (C4_updatePassword_verifies_old_password wBadAuth "oldpw" "newpw" "newpw"
      ⟨"user00000000001", "user@example.com"⟩ rfl).1
    ⟨"failed to authenticate", rfl⟩

/-- C6: with the collection fetched successfully, the only update call the
permission-fix script issues targets that collection's id with the payload
containing exactly the one field `createRule` set to the literal
`@request.auth.id != ""`; applying that payload under the backend's merge
semantics sets the create-rule and leaves the list, view, update and
delete rules unchanged. -/
theorem C6_fix_script_updates_only_createRule :
    ∀ (w : ScriptWorld) (c : Collection),
      w.getCollection "audit_logs" = Except.ok c →
      (∀ cid payload,
        ScriptEvent.collectionsUpdate cid payload ∈
            (fixAuditLogsPermissions w).2 →
        cid = c.id ∧ payload = [("createRule", auditCreateRule)]) ∧
      ((applyCollectionUpdate c [("createRule", auditCreateRule)]).createRule =
          some auditCreateRule ∧
       (applyCollectionUpdate c [("createRule", auditCreateRule)]).listRule =
          c.listRule ∧
       (applyCollectionUpdate c [("createRule", auditCreateRule)]).viewRule =
          c.viewRule ∧
       (applyCollectionUpdate c [("createRule", auditCreateRule)]).updateRule =
          c.updateRule ∧
       (applyCollectionUpdate c [("createRule", auditCreateRule)]).deleteRule =
          c.deleteRule) := by
  intro w c hc
  constructor
  · intro cid payload hmem
    simp only [fixAuditLogsPermissions, hc] at hmem
    cases hu : w.updateCollection c.id [("createRule", auditCreateRule)] <;>
      rw [hu] at hmem <;>
    · rcases List.mem_cons.mp hmem with h | h
      · cases h
      · have := List.mem_singleton.mp h
        injection this with h1 h2
        exact ⟨h1, h2⟩
  · refine ⟨rfl, rfl, rfl, rfl, rfl⟩

/-- A script world in which every call succeeds, fetching a fixture
collection with pre-existing list and update rules. -/
def swOk : ScriptWorld :=
  ⟨fun _ _ => Except.ok (),
   fun _ => Except.ok ⟨"colid0000000001", some "adminOnly", none, none,
     some "adminOnly", none⟩,
   fun _ _ => Except.ok (),
   "admin@example.com", "hunter2"⟩

/-- C6 witness: on the fixture collection, the merged result keeps the
pre-existing list rule and gains exactly the new create-rule literal. -/
theorem C6_witness :
    (applyCollectionUpdate
        ⟨"colid0000000001", some "adminOnly", none, none, some "adminOnly",
         none⟩
        [("createRule", auditCreateRule)]).createRule = some auditCreateRule ∧
    (applyCollectionUpdate
        ⟨"colid0000000001", some "adminOnly", none, none, some "adminOnly",
         none⟩
        [("createRule", auditCreateRule)]).listRule = some "adminOnly" :=
  ⟨(C6_fix_script_updates_only_createRule swOk
      ⟨"colid0000000001", some "adminOnly", none, none, some "adminOnly",
       none⟩ rfl).2.1,
   (C6_fix_script_updates_only_createRule swOk
      ⟨"colid0000000001", some "adminOnly", none, none, some "adminOnly",
       none⟩ rfl).2.2.1⟩

/-- C8: an unset (or falsy) URL environment variable makes the script exit
with code 1 before issuing any call; with a URL present, a failed
authentication or a failed collection update also produces a non-zero exit
code. -/
theorem C8_script_exit_codes :
    ∀ (e : ScriptEnv) (w : ScriptWorld),
      (resolvedUrl e = none → scriptMain e w = (1, [])) ∧
      (∀ u, resolvedUrl e = some u → (authenticate e w).1 = false →
        (scriptMain e w).1 ≠ 0) ∧
      (∀ u, resolvedUrl e = some u → (authenticate e w).1 = true →
        (fixAuditLogsPermissions w).1.success = false →
        (scriptMain e w).1 ≠ 0) := by
  intro e w
  refine ⟨?_, ?_, ?_⟩
  · intro h
    simp [scriptMain, h]
  · intro u hu ha
    simp [scriptMain, hu, ha]
  · intro u hu ha hf
    simp [scriptMain, hu, ha, hf]

/-- An environment with no URL variable at all. -/
def envEmpty : ScriptEnv := ⟨none, none, none, none⟩

/-- An environment carrying only the URL variable. -/
def envUrlOnly : ScriptEnv := ⟨some "http://localhost:8090", none, none, none⟩

/-- Variant of `swOk` with failing admin authentication. -/
def swBadAuth : ScriptWorld :=
  ⟨fun _ _ => Except.error "invalid credentials",
   swOk.getCollection, swOk.updateCollection,
   "admin@example.com", "wrong"⟩

/-- C8 witness: with no URL variable the concrete run exits 1 with no
calls; with a URL but failing credentials the exit code is non-zero. -/
theorem C8_witness :
    scriptMain envEmpty swOk = (1, []) ∧
    (scriptMain envUrlOnly swBadAuth).1 ≠ 0 :=
  ⟨(C8_script_exit_codes envEmpty swOk).1 rfl,
   (C8_script_exit_codes envUrlOnly swBadAuth).2.1 "http://localhost:8090"
     rfl rfl⟩

/-- C5: when the submission carries a truthy image and the image fetch
throws (or the fetched file fails validation), `approve` proceeds exactly
as the no-image continuation — the mosque step and the final approval
update still run, without the image.  A failure in any other step (the
submission fetch, the mosque create/update, the final status update)
propagates to the caller. -/
theorem C5_image_failure_swallowed :
    (∀ (w : World) (id rb fname : String) (sub : Submission),
      validateRecordId id = true →
      w.getSubmissionRecord id = Except.ok sub →
      sub.image = some fname → (fname != "") = true →
      ((∃ e, w.fetchImage sub.id fname = Except.error e) ∨
       (∃ file msg, w.fetchImage sub.id fname = Except.ok (some file) ∧
          w.validateImageFile file = some msg)) →
      submissionsApi.approve w id rb =
        approveCont w id rb sub [Event.netGetOne "submissions" id]
          (none, [Event.imageFetch sub.id fname])) ∧
    (∀ (w : World) (id rb e : String),
      validateRecordId id = true →
      w.getSubmissionRecord id = Except.error e →
      submissionsApi.approve w id rb =
        (Except.error e, [Event.netGetOne "submissions" id])) ∧
    (∀ (w : World) (id rb e : String) (sub : Submission),
      validateRecordId id = true →
      w.getSubmissionRecord id = Except.ok sub →
      (approveMosque w sub (approveImage w sub).1).1 = Except.error e →
      (submissionsApi.approve w id rb).1 = Except.error e) ∧
    (∀ (w : World) (id rb e : String) (sub : Submission) (u : Unit),
      validateRecordId id = true →
      w.getSubmissionRecord id = Except.ok sub →
      (approveMosque w sub (approveImage w sub).1).1 = Except.ok u →
      w.patchSubmissionRecord id (reviewPatch rb w.now) = Except.error e →
      (submissionsApi.approve w id rb).1 = Except.error e) := by
  refine ⟨?_, ?_, ?_, ?_⟩
  · intro w id rb fname sub hv hrec himg hne hfail
    rw [approve_of_get_ok (submissionsGet_of_record_ok hv hrec)]
    rcases hfail with ⟨e, he⟩ | ⟨file, msg, hok, hval⟩
    · rw [approveImage_of_fetch_error himg hne he]
    · rw [approveImage_of_validate_fail himg hne hok hval]
  · intro w id rb e hv hrec
    rw [approve_of_get_error (submissionsGet_of_record_error hv hrec)]
  · intro w id rb e sub hv hrec hm
    rcases hM : approveMosque w sub (approveImage w sub).1 with ⟨mres, trM⟩
    have hm' : mres = Except.error e := by rw [hM] at hm; exact hm
    subst hm'
    rw [approve_of_get_ok (submissionsGet_of_record_ok hv hrec),
      approveCont_of_mosque_error hM]
  · intro w id rb e sub u hv hrec hm hp
    rcases hM : approveMosque w sub (approveImage w sub).1 with ⟨mres, trM⟩
    have hm' : mres = Except.ok u := by rw [hM] at hm; exact hm
    subst hm'
    rw [approve_of_get_ok (submissionsGet_of_record_ok hv hrec),
      approveCont_of_mosque_ok hM, update_of_patch_error hp]

/-- C5 witness: in the fixture world whose image fetch throws, approval of
the image-bearing submission still creates the mosque (without image) and
still marks the submission approved. -/
theorem C5_witness :
    submissionsApi.approve wImgFail "subimg000000aaa" "rev" =
      approveCont wImgFail "subimg000000aaa" "rev" subImg
        [Event.netGetOne "submissions" "subimg000000aaa"]
        (none, [Event.imageFetch "subimg000000aaa" "photo.png"]) ∧
    (submissionsApi.approve wImgFail "subimg000000aaa" "rev").1 =
      Except.ok subImg ∧
    (submissionsApi.approve wImgFail "subimg000000aaa" "rev").2 =
      [Event.netGetOne "submissions" "subimg000000aaa",
       Event.imageFetch "subimg000000aaa" "photo.png",
       Event.mosqueCreate (mosquePayload subImg) none,
       Event.submissionUpdate "subimg000000aaa"
         (reviewPatch "rev" "2026-01-01T00:00:00.000Z")] :=
  ⟨C5_image_failure_swallowed.1 wImgFail "subimg000000aaa" "rev" "photo.png"
     subImg (by decide) rfl rfl (by decide)
     (Or.inl ⟨"network error", rfl⟩),
   by decide, by decide⟩

theorem submissionsGet_events (w : World) (id : String) :
    (submissionsApi.get w id).2 = [] ∨
    (submissionsApi.get w id).2 = [Event.netGetOne "submissions" id] := by
  by_cases hv : validateRecordId id = true
  · cases hrec : w.getSubmissionRecord id with
    | error e => rw [submissionsGet_of_record_error hv hrec]; exact Or.inr rfl
    | ok s => rw [submissionsGet_of_record_ok hv hrec]; exact Or.inr rfl
  · rw [Bool.not_eq_true] at hv
    rw [submissionsGet_invalid hv]
    exact Or.inl rfl

/-- C7, counterexample: an `edit_mosque` submission with no `mosque_id`
is approved without error, yet its trace contains no mosque create or
update event at all — the claimed create-or-update step is skipped. -/
theorem C7_counterexample :
    submissionsApi.approve (mkWorld subEditNoId) "edit000000000aa" "rev" =
      (Except.ok subEditNoId,
       [Event.netGetOne "submissions" "edit000000000aa",
        Event.submissionUpdate "edit000000000aa"
          (reviewPatch "rev" "2026-01-01T00:00:00.000Z")]) := by
  decide

/-- C7, amended: every `approve` call that completes without error runs,
in order, the submission fetch, then the optional image fetch, then the
mosque step, then the final approval update with reviewer and timestamp —
where the mosque step creates for `new_mosque` and updates for
`edit_mosque` with a truthy `mosque_id`, and is skipped for an
`edit_mosque` submission whose `mosque_id` is absent or empty. -/
theorem C7_approve_step_order :
    ∀ (w : World) (id rb : String) (r : Submission) (tr : List Event),
      submissionsApi.approve w id rb = (Except.ok r, tr) →
      ∃ sub, w.getSubmissionRecord id = Except.ok sub ∧
        tr = [Event.netGetOne "submissions" id] ++ (approveImage w sub).2 ++
             mosqueStepEvents sub (approveImage w sub).1 ++
             [Event.submissionUpdate id (reviewPatch rb w.now)] ∧
        w.patchSubmissionRecord id (reviewPatch rb w.now) = Except.ok r := by
  intro w id rb r tr h
  rcases hg : submissionsApi.get w id with ⟨gres, tr0⟩
  cases gres with
  | error e =>
    rw [approve_of_get_error hg] at h
    simp at h
  | ok sub =>
    rw [approve_of_get_ok hg] at h
    obtain ⟨hv, hrec, htr0⟩ := submissionsGet_ok_inv hg
    subst htr0
    rcases hM : approveMosque w sub (approveImage w sub).1 with ⟨mres, trM⟩
    cases mres with
    | error e =>
      rw [approveCont_of_mosque_error hM] at h
      simp at h
    | ok u =>
      rw [approveCont_of_mosque_ok hM] at h
      cases hp : w.patchSubmissionRecord id (reviewPatch rb w.now) with
      | error e =>
        rw [update_of_patch_error hp] at h
        simp at h
      | ok s =>
        rw [update_of_patch_ok hp] at h
        simp only [Prod.mk.injEq, Except.ok.injEq] at h
        obtain ⟨h1, h2⟩ := h
        subst h1
        refine ⟨sub, hrec, ?_, rfl⟩
        rw [← h2, approveMosque_ok_events hM]

/-- C7 witness: the theorem applied to the concrete `new_mosque` fixture
run, whose completing trace decomposes into the four ordered steps. -/
theorem C7_witness :
    ∃ sub, (mkWorld subNew).getSubmissionRecord "sub0000000000aa" =
        Except.ok sub ∧
      [Event.netGetOne "submissions" "sub0000000000aa",
       Event.mosqueCreate (mosquePayload subNew) none,
       Event.submissionUpdate "sub0000000000aa"
         (reviewPatch "rev" "2026-01-01T00:00:00.000Z")] =
        [Event.netGetOne "submissions" "sub0000000000aa"] ++
          (approveImage (mkWorld subNew) sub).2 ++
          mosqueStepEvents sub (approveImage (mkWorld subNew) sub).1 ++
          [Event.submissionUpdate "sub0000000000aa"
            (reviewPatch "rev" (mkWorld subNew).now)] ∧
      (mkWorld subNew).patchSubmissionRecord "sub0000000000aa"
          (reviewPatch "rev" (mkWorld subNew).now) = Except.ok subNew :=
  C7_approve_step_order (mkWorld subNew) "sub0000000000aa" "rev" subNew
    [Event.netGetOne "submissions" "sub0000000000aa",
     Event.mosqueCreate (mosquePayload subNew) none,
     Event.submissionUpdate "sub0000000000aa"
       (reviewPatch "rev" "2026-01-01T00:00:00.000Z")]
    (by decide)

/-- C10: if the mosque step of `approve` throws — including the
`Invalid mosque ID format` error raised for an `edit_mosque` submission
whose truthy `mosque_id` fails validation — the error propagates and no
submission update is ever issued, so the submission's status, reviewer and
timestamp are unchanged. -/
theorem C10_mosque_failure_blocks_update :
    (∀ (w : World) (id rb e : String) (sub : Submission),
      validateRecordId id = true →
      w.getSubmissionRecord id = Except.ok sub →
      (approveMosque w sub (approveImage w sub).1).1 = Except.error e →
      (submissionsApi.approve w id rb).1 = Except.error e ∧
      (∀ i p, Event.submissionUpdate i p ∉
        (submissionsApi.approve w id rb).2)) ∧
    (∀ (w : World) (sub : Submission) (img : Option String) (mid : String),
      sub.type = "edit_mosque" → sub.mosque_id = some mid →
      (mid != "") = true → validateRecordId mid = false →
      (approveMosque w sub img).1 = Except.error "Invalid mosque ID format") := by
  constructor
  · intro w id rb e sub hv hrec hm
    have hget := submissionsGet_of_record_ok (w := w) hv hrec
    rcases hM : approveMosque w sub (approveImage w sub).1 with ⟨mres, trM⟩
    have hm' : mres = Except.error e := by rw [hM] at hm; exact hm
    subst hm'
    rw [approve_of_get_ok hget, approveCont_of_mosque_error hM]
    refine ⟨rfl, ?_⟩
    intro i p hmem
    rcases List.mem_append.mp hmem with hmem | hmem
    · rcases List.mem_append.mp hmem with hmem | hmem
      · cases List.mem_singleton.mp hmem
      · rcases approveImage_mem hmem with ⟨a, b, hab⟩
        cases hab
    · have hmem' : Event.submissionUpdate i p ∈
          (approveMosque w sub (approveImage w sub).1).2 := by
        rw [hM]; exact hmem
      rcases approveMosque_mem hmem' with ⟨p', i', hx⟩ | ⟨m', p', i', hx⟩ <;>
        cases hx
  · intro w sub img mid ht hmid hne hvm
    rw [approveMosque_invalid_mid ht hmid hne hvm]

/-- C10 witness: in the fixture world whose mosque creation fails, the
concrete approval propagates the error and its trace contains no
submission-update event. -/
theorem C10_witness :
    (submissionsApi.approve wMosqueFail "sub0000000000aa" "rev").1 =
      Except.error "create failed" ∧
    Event.submissionUpdate "sub0000000000aa"
        (reviewPatch "rev" "2026-01-01T00:00:00.000Z") ∉
      (submissionsApi.approve wMosqueFail "sub0000000000aa" "rev").2 :=
  ⟨(C10_mosque_failure_blocks_update.1 wMosqueFail "sub0000000000aa" "rev"
      "create failed" subNew (by decide) rfl (by decide)).1,
   (C10_mosque_failure_blocks_update.1 wMosqueFail "sub0000000000aa" "rev"
      "create failed" subNew (by decide) rfl (by decide)).2
     "sub0000000000aa" (reviewPatch "rev" "2026-01-01T00:00:00.000Z")⟩

theorem mosquePayload_new_keys {sub : Submission}
    (htype : sub.type = "new_mosque") :
    (∀ k, k ∉ ALLOWED_MOSQUE_FIELDS → k ≠ "created_by" →
      k ∉ objKeys (mosquePayload sub)) ∧
    lookupKey (mosquePayload sub) "created_by" =
      some (JVal.str sub.submitted_by) := by
  unfold mosquePayload
  rw [if_pos htype]
  constructor
  · intro k hk hkcb hmem
    rcases mem_objKeys_setKey hmem with hmem | hrfl
    · rcases mem_objKeys_setKey hmem with hmem | hrfl
      · exact hk (mem_objKeys_sanitizedBase hmem)
      · subst hrfl
        exact hk (by decide)
    · exact hkcb hrfl
  · exact lookupKey_setKey_self _ _ _

/-- C1, counterexample: for the fixture `new_mosque` submission whose
`data` carries the key `created_by` — a key outside the allow-list — the
payload `approve` passes to the mosque-creation call does contain the key
`created_by`, so the key is not absent from the created record's data as
claimed (its value, however, is the submitter id, not the value from
`submission.data`). -/
theorem C1_counterexample :
    subNew.type = "new_mosque" ∧
    "created_by" ∈ objKeys subNew.data ∧
    "created_by" ∉ ALLOWED_MOSQUE_FIELDS ∧
    Event.mosqueCreate (mosquePayload subNew) none ∈
      (submissionsApi.approve (mkWorld subNew) "sub0000000000aa" "rev").2 ∧
    "created_by" ∈ objKeys (mosquePayload subNew) ∧
    lookupKey (mosquePayload subNew) "created_by" =
      some (JVal.str "user00000000001") := by
  refine ⟨rfl, by decide, by decide, by decide, by decide, by decide⟩

/-- C1, amended: every payload `approve` passes to the mosque-creation
call comes from a fetched `new_mosque` submission and equals its sanitised
data; every key of `submission.data` outside the allow-list other than
`created_by` is absent from that payload, and the payload's `created_by`
entry always holds `submission.submitted_by` — never the value from
`submission.data`. -/
theorem C1_allowlist_plus_created_by :
    ∀ (w : World) (id rb : String) (p : JObj) (i : Option String),
      Event.mosqueCreate p i ∈ (submissionsApi.approve w id rb).2 →
      ∃ sub, w.getSubmissionRecord id = Except.ok sub ∧
        sub.type = "new_mosque" ∧ p = mosquePayload sub ∧
        (∀ k, k ∈ objKeys sub.data → k ∉ ALLOWED_MOSQUE_FIELDS →
          k ≠ "created_by" → k ∉ objKeys p) ∧
        lookupKey p "created_by" = some (JVal.str sub.submitted_by) := by
  intro w id rb p i hmem
  rcases hg : submissionsApi.get w id with ⟨gres, tr0⟩
  have htr0 : (submissionsApi.get w id).2 = tr0 := by rw [hg]
  cases gres with
  | error e =>
    rw [approve_of_get_error hg] at hmem
    rcases submissionsGet_events w id with h0 | h0 <;> rw [htr0] at h0 <;>
      rw [h0] at hmem
    · cases hmem
    · cases List.mem_singleton.mp hmem
  | ok sub =>
    rw [approve_of_get_ok hg] at hmem
    obtain ⟨hv, hrec, htr⟩ := submissionsGet_ok_inv hg
    subst htr
    have hfromMosque : Event.mosqueCreate p i ∈
        (approveMosque w sub (approveImage w sub).1).2 := by
      rcases hM : approveMosque w sub (approveImage w sub).1 with ⟨mres, trM⟩
      cases mres with
      | error e =>
        rw [approveCont_of_mosque_error hM] at hmem
        rcases List.mem_append.mp hmem with hmem | hmem
        · rcases List.mem_append.mp hmem with hmem | hmem
          · cases List.mem_singleton.mp hmem
          · rcases approveImage_mem hmem with ⟨a, b, hab⟩
            cases hab
        · exact hmem
      | ok u =>
        rw [approveCont_of_mosque_ok hM] at hmem
        rcases List.mem_append.mp hmem with hmem | hmem
        · rcases List.mem_append.mp hmem with hmem | hmem
          · rcases List.mem_append.mp hmem with hmem | hmem
            · cases List.mem_singleton.mp hmem
            · rcases approveImage_mem hmem with ⟨a, b, hab⟩
              cases hab
          · exact hmem
        · rw [update_events] at hmem
          cases List.mem_singleton.mp hmem
    obtain ⟨htype, hp, hi⟩ := approveMosque_create_mem hfromMosque
    refine ⟨sub, hrec, htype, hp, ?_, ?_⟩
    · intro k hk1 hk2 hk3
      rw [hp]
      exact (mosquePayload_new_keys htype).1 k hk2 hk3
    · rw [hp]
      exact (mosquePayload_new_keys htype).2

/-- C1 witness: the amended theorem applied to the concrete fixture run:
the payload of the issued mosque-creation call satisfies the allow-list
property with the `created_by` exception. -/
theorem C1_witness :
    ∃ sub, (mkWorld subNew).getSubmissionRecord "sub0000000000aa" =
        Except.ok sub ∧
      sub.type = "new_mosque" ∧ mosquePayload subNew = mosquePayload sub ∧
      (∀ k, k ∈ objKeys sub.data → k ∉ ALLOWED_MOSQUE_FIELDS →
        k ≠ "created_by" → k ∉ objKeys (mosquePayload subNew)) ∧
      lookupKey (mosquePayload subNew) "created_by" =
        some (JVal.str sub.submitted_by) :=
  C1_allowlist_plus_created_by (mkWorld subNew) "sub0000000000aa" "rev"
    (mosquePayload subNew) none (by decide)
